import Mathlib

/-!
Verification of the `eventsource` Go library (SSE: server-sent events).

Shallow embedding. Go strings and byte slices are modelled as `List Char`
(the wire protocol is text); Go's `len` on a byte slice is the UTF-8 byte
length `utf8Len`. Stateful methods on `*Event`, `*Client`, `*Stream`
become functions returning the updated value; concurrency is collapsed to
the sequential happens-before order the claims describe.
-/

namespace EventSource

/-- Go strings / byte slices, modelled as lists of characters. -/
abbrev GoString := List Char

/-- Byte length of a Go string (`len` on the underlying UTF-8 bytes). -/
def utf8Len (p : GoString) : Nat := p.foldl (fun n c => n + c.utf8Size) 0

/-- Go errors relevant to this library (`io.ErrClosedPipe` is the
"connection closed" error returned by `Client.Send`). -/
inductive GoErr where
  | errClosedPipe
deriving DecidableEq, Repr

/-- `strings.Split(p, "\n")` from `Event.WriteString` (src/event.go):
splits on every newline; `n` consecutive newlines produce `n - 1` empty
segments between them, and the empty string splits to one empty segment. -/
def splitOnNl : GoString → List GoString
  | [] => [[]]
  | c :: rest =>
    if c = '\n' then [] :: splitOnNl rest
    else
      match splitOnNl rest with
      | [] => [[c]]
      | s :: ss => (c :: s) :: ss

/-- `Event` from src/event.go: structured fields plus the cached wire
buffer `buf` and the clean flag `bufSet` (`bufSet = false` means dirty,
the next read must regenerate). `retry` is a Go `uint64`, modelled as
`Nat` (it is only compared to zero and formatted, never wrapped). -/
structure Event where
  id : GoString
  data : List GoString
  event : GoString
  retry : Nat
  buf : GoString
  bufSet : Bool
deriving DecidableEq, Repr

/-- The Go zero value `&Event{}`. -/
def Event.empty : Event :=
  { id := [], data := [], event := [], retry := 0, buf := [], bufSet := false }

/-- `Event.ID`: sets the event ID and invalidates the buffer. -/
def Event.ID (e : Event) (i : GoString) : Event :=
  { e with id := i, bufSet := false }

/-- `Event.Type`: sets the `event:` field and invalidates the buffer. -/
def Event.Type (e : Event) (t : GoString) : Event :=
  { e with event := t, bufSet := false }

/-- `Event.Retry`: sets the `retry:` field and invalidates the buffer. -/
def Event.Retry (e : Event) (t : Nat) : Event :=
  { e with retry := t, bufSet := false }

/-- `Event.WriteString` (src/event.go lines 123-134): splits the input on
newlines, appends every non-empty segment to `data`, and clears `bufSet`. -/
def Event.WriteString (e : Event) (p : GoString) : Event :=
  { e with
    data := (splitOnNl p).foldl
      (fun d entry => if entry.length = 0 then d else d ++ [entry]) e.data,
    bufSet := false }

/-- `Event.Data`: truncates `data` (`e.data = e.data[:0]`) then writes the
string through `WriteString`. -/
def Event.Data (e : Event) (dat : GoString) : Event :=
  ({ e with data := [] }).WriteString dat

/-- `Event.AppendData`: adds data without overwriting, via `WriteString`. -/
def Event.AppendData (e : Event) (dat : GoString) : Event :=
  e.WriteString dat

/-- `Event.Write`: `WriteString(string(p))`, then returns `(len(p), nil)`. -/
def Event.Write (e : Event) (p : GoString) : Event × Nat × Option GoErr :=
  (e.WriteString p, utf8Len p, none)

/-- `Event.WriteRaw`: marks the buffer clean and appends `p` directly to
it, bypassing the structured fields (`bytes.Buffer.Write` appends and
returns `(len(p), nil)`). -/
def Event.WriteRaw (e : Event) (p : GoString) : Event × Nat × Option GoErr :=
  ({ e with bufSet := true, buf := e.buf ++ p }, utf8Len p, none)

/-- `Event.prepare` (src/event.go lines 70-107): resets the buffer, then
writes `event:`, `id:`, one `data:` line per entry, `retry:` when
positive, and the terminating blank line; finally marks the buffer clean.
`strconv.FormatUint(retry, 10)` is `Nat.repr`. -/
def Event.prepare (e : Event) : Event :=
  let b : GoString := []
  let b := if e.event.length > 0 then b ++ "event: ".toList ++ e.event ++ ['\n'] else b
  let b := if e.id.length > 0 then b ++ "id: ".toList ++ e.id ++ ['\n'] else b
  let b := if e.data.length > 0 then
      e.data.foldl (fun acc entry => acc ++ "data: ".toList ++ entry ++ ['\n']) b
    else b
  let b := if e.retry > 0 then b ++ "retry: ".toList ++ (Nat.repr e.retry).toList ++ ['\n'] else b
  { e with buf := b ++ ['\n'], bufSet := true }

/-- `Event.String`: unconditionally calls `prepare` and returns the whole
buffer; the updated receiver is returned alongside the string. -/
def Event.String (e : Event) : GoString × Event :=
  let e' := e.prepare
  (e'.buf, e')

/-- Draining `Event.Read` to end of stream (src/event.go lines 59-67): if
the buffer is clean it is read as-is, otherwise `prepare` regenerates it
first; reading consumes the buffer. -/
def Event.readAll (e : Event) : GoString × Event :=
  if e.bufSet then (e.buf, { e with buf := [] })
  else
    let e' := e.prepare
    (e'.buf, { e' with buf := [] })

/-- `Event.Clone` (src/event.go lines 152-161): copies `id`, `event`,
`retry` and (into a fresh slice) `data`; the clone's buffer is the zero
value, empty and dirty. -/
def Event.Clone (e : Event) : Event :=
  { id := e.id, event := e.event, retry := e.retry, data := e.data,
    buf := [], bufSet := false }

/-- The structured mutations of an `Event` (the setters and writers of
src/event.go), used to state frame properties about `Clone`. -/
inductive Mutation where
  | setID (s : GoString)
  | setType (s : GoString)
  | setRetry (n : Nat)
  | setData (s : GoString)
  | appendData (s : GoString)
  | write (s : GoString)
deriving DecidableEq, Repr

/-- Applying a structured mutation to an event. -/
def Mutation.apply : Mutation → Event → Event
  | .setID s, e => e.ID s
  | .setType s, e => e.Type s
  | .setRetry n, e => e.Retry n
  | .setData s, e => e.Data s
  | .appendData s, e => e.AppendData s
  | .write s, e => (e.Write s).1

/-- A world of (original, clone) event pairs, for the `Clone`
independence claims: `Clone` shares no state with the original, so a
mutation addressed to one component touches only that component. -/
def cloneWorld (e : Event) : Event × Event := (e, e.Clone)

/-- Mutating the clone half of a world. -/
def mutClone (m : Mutation) (w : Event × Event) : Event × Event :=
  (w.1, m.apply w.2)

/-- Mutating the original half of a world. -/
def mutOrig (m : Mutation) (w : Event × Event) : Event × Event :=
  (m.apply w.1, w.2)

/-- `Client` from src/client.go: the pending-event queue (the buffered
channel `events`, observed as the list of queued events in arrival order)
and the `closed` flag. The HTTP sink, flusher and close notifier are
outside the model; the delivery worker's effect is collapsed into the
operations below at the points the claims observe. -/
structure Client where
  events : List Event
  closed : Bool
deriving DecidableEq, Repr

/-- The Go zero state of a fresh client: empty queue, not closed. -/
def Client.new : Client := { events := [], closed := false }

/-- `Client.Send` (src/client.go lines 64-70): if `closed`, returns
`io.ErrClosedPipe` without touching the queue; otherwise enqueues a clone
of the event and returns no error. -/
def Client.Send (c : Client) (ev : Event) : Client × Option GoErr :=
  if c.closed then (c, some GoErr.errClosedPipe)
  else ({ c with events := c.events ++ [ev.Clone] }, none)

/-- `Client.Shutdown` (src/client.go lines 73-76): closes the queue and
waits for the worker, which drains any still-queued events to the wire
and then sets `closed` before exiting; on return the queue is empty and
the client is closed. -/
def Client.Shutdown (_c : Client) : Client :=
  { events := [], closed := true }

/-- Topic sets as Go stores them: `map[string]bool`, where a missing key
reads as `false` (src/stream.go `topicList`). Modelled as an association
list with first-match lookup. -/
abbrev topicList := List (String × Bool)

/-- Go map read `topics[topic]`: the stored value, or `false` if absent. -/
def lookupTL (tl : topicList) (topic : String) : Bool :=
  match tl.find? (fun p => p.1 == topic) with
  | some p => p.2
  | none => false

/-- Go map write `topics[topic] = v`: replace if present, insert if not. -/
def setTL (tl : topicList) (topic : String) (v : Bool) : topicList :=
  if (tl.find? (fun p => p.1 == topic)).isSome then
    tl.map (fun p => if p.1 == topic then (p.1, v) else p)
  else tl ++ [(topic, v)]

/-- `Stream` from src/stream.go: the registry `map[*Client]topicList`.
A map key is a `*Client` pointer: modelled as a `Nat` identity alongside
the pointed-to `Client` state and the topic set. Keys of a Go map are
unique; the operations below preserve that. The `listLock` disappears in
this sequential model. -/
structure Stream where
  clients : List (Nat × Client × topicList)
deriving Repr

/-- `NewStream`: empty registry. -/
def NewStream : Stream := { clients := [] }

/-- Registry lookup `s.clients[c]`, also exposing the client's state. -/
def Stream.getClient (s : Stream) (id : Nat) : Option (Client × topicList) :=
  (s.clients.find? (fun p => p.1 == id)).map (fun p => p.2)

/-- `Stream.Register` (src/stream.go lines 62-73): no-op if the client is
already registered, otherwise adds it with an empty topic set. -/
def Stream.Register (s : Stream) (id : Nat) (c : Client) : Stream :=
  match s.getClient id with
  | some _ => s
  | none => { clients := s.clients ++ [(id, c, [])] }

/-- `Stream.Remove` (src/stream.go lines 76-81): deletes the client from
the registry without shutting it down. -/
def Stream.Remove (s : Stream) (id : Nat) : Stream :=
  { clients := s.clients.filter (fun p => !(p.1 == id)) }

/-- `Stream.Subscribe` (src/stream.go lines 96-110): registers the client
with a fresh topic set if absent, then sets `topics[topic] = true`. -/
def Stream.Subscribe (s : Stream) (topic : String) (id : Nat) (c : Client) : Stream :=
  match s.getClient id with
  | some _ =>
    { clients := s.clients.map
        (fun p => if p.1 == id then (p.1, p.2.1, setTL p.2.2 topic true) else p) }
  | none => { clients := s.clients ++ [(id, c, setTL [] topic true)] }

/-- `Stream.Unsubscribe` (src/stream.go lines 113-122): no-op for an
unregistered client; otherwise sets `topics[topic] = false` (the entry
stays present with value `false`, it is not deleted). -/
def Stream.Unsubscribe (s : Stream) (topic : String) (id : Nat) : Stream :=
  match s.getClient id with
  | none => s
  | some _ =>
    { clients := s.clients.map
        (fun p => if p.1 == id then (p.1, p.2.1, setTL p.2.2 topic false) else p) }

/-- `Stream.Broadcast` (src/stream.go lines 84-91): calls `cli.Send(e)`
on every registered client, discarding the returned error. -/
def Stream.Broadcast (s : Stream) (e : Event) : Stream :=
  { clients := s.clients.map (fun p => (p.1, (p.2.1.Send e).1, p.2.2)) }

/-- `Stream.Publish` (src/stream.go lines 125-134): calls `cli.Send(e)`
on exactly the registered clients whose `topics[topic]` reads `true`,
discarding the returned error. -/
def Stream.Publish (s : Stream) (topic : String) (e : Event) : Stream :=
  { clients := s.clients.map
      (fun p => if lookupTL p.2.2 topic then (p.1, (p.2.1.Send e).1, p.2.2) else p) }

/-- `Stream.Shutdown` (src/stream.go lines 137-145): shuts down every
registered client and deletes it from the registry. The Go function
returns nothing; the second component records, per client, the state in
which its `Shutdown` call left it, so the claims can observe those calls. -/
def Stream.Shutdown (s : Stream) : Stream × List (Nat × Client) :=
  ({ clients := [] }, s.clients.map (fun p => (p.1, p.2.1.Shutdown)))

/-- `Stream.NumClients` (src/stream.go lines 223-225): `len(s.clients)`. -/
def Stream.NumClients (s : Stream) : Nat := s.clients.length

/-! Helper lemmas. -/

/-- The skip-empty loop of `WriteString` appends exactly the non-empty
segments of the split. -/
lemma foldl_skip_empty (l : List GoString) (d : List GoString) :
    l.foldl (fun d entry => if entry.length = 0 then d else d ++ [entry]) d
      = d ++ l.filter (fun x => !(x.length == 0)) := by
  induction l generalizing d with
  | nil => simp
  | cons x xs ih =>
    rw [List.foldl_cons]
    by_cases h : x.length = 0
    · rw [if_pos h, ih]
      simp [List.filter_cons, h]
    · rw [if_neg h, ih]
      simp [List.filter_cons, h]

/-- Splitting a string made of newlines only yields empty segments only. -/
lemma splitOnNl_all_newline :
    ∀ p : GoString, (∀ c ∈ p, c = '\n') → ∀ x ∈ splitOnNl p, x = [] := by
  intro p
  induction p with
  | nil =>
    intro _ x hx
    simp only [splitOnNl, List.mem_singleton] at hx
    exact hx
  | cons c rest ih =>
    intro h x hx
    have hc : c = '\n' := h c (List.mem_cons_self _ _)
    rw [splitOnNl] at hx
    rw [if_pos hc] at hx
    rcases List.mem_cons.mp hx with h1 | h1
    · exact h1
    · exact ih (fun d hd => h d (List.mem_cons_of_mem _ hd)) x h1

/-- The byte-length fold over a prefix accumulator. -/
lemma utf8Len_foldl (p : GoString) (n : Nat) :
    p.foldl (fun n c => n + c.utf8Size) n = n + utf8Len p := by
  induction p generalizing n with
  | nil => simp [utf8Len]
  | cons c rest ih =>
    simp only [utf8Len, List.foldl_cons] at *
    rw [ih, ih (0 + c.utf8Size)]
    omega

/-- Peeling one character off the byte-length fold. -/
lemma utf8Len_cons (c : Char) (p : GoString) :
    utf8Len (c :: p) = c.utf8Size + utf8Len p := by
  show (c :: p).foldl (fun n c => n + c.utf8Size) 0 = c.utf8Size + utf8Len p
  rw [List.foldl_cons, utf8Len_foldl]
  omega

/-- A string of newlines only has one byte per character. -/
lemma utf8Len_all_newline :
    ∀ p : GoString, (∀ c ∈ p, c = '\n') → utf8Len p = p.length := by
  intro p
  induction p with
  | nil => intro _; rfl
  | cons c rest ih =>
    intro h
    have hc : c = '\n' := h c (List.mem_cons_self _ _)
    have h1 : c.utf8Size = 1 := by rw [hc]; decide
    rw [utf8Len_cons, ih (fun d hd => h d (List.mem_cons_of_mem _ hd)), h1,
      List.length_cons]
    omega

/-- A `find?` by key commutes with a map that preserves keys. -/
lemma find?_key_map (l : List (Nat × Client × topicList)) (id : Nat)
    (F : Nat × Client × topicList → Nat × Client × topicList)
    (hF : ∀ p, (F p).1 = p.1) :
    (l.map F).find? (fun p => p.1 == id)
      = (l.find? (fun p => p.1 == id)).map F := by
  rw [List.find?_map]
  have hpred : ((fun p : Nat × Client × topicList => p.1 == id) ∘ F)
      = fun p => p.1 == id := by
    funext p
    simp [Function.comp, hF]
  rw [hpred]

/-- Unpacking a successful registry lookup into the underlying entry. -/
lemma getClient_entry (s : Stream) (id : Nat) (c : Client) (tl : topicList)
    (h : s.getClient id = some (c, tl)) :
    ∃ p₀, s.clients.find? (fun p => p.1 == id) = some p₀
      ∧ p₀.2 = (c, tl) ∧ (p₀.1 == id) = true := by
  unfold Stream.getClient at h
  cases hf : s.clients.find? (fun p => p.1 == id) with
  | none => rw [hf] at h; simp at h
  | some q =>
    rw [hf] at h
    have h' : some q.2 = some (c, tl) := h
    have hkey := List.find?_some hf
    exact ⟨q, rfl, Option.some.inj h', hkey⟩

/-- Effect of `Publish` on one registered client: `Send` is invoked on it
exactly when its stored topic flag reads `true`. -/
lemma getClient_Publish (s : Stream) (topic : String) (ev : Event)
    (id : Nat) (c : Client) (tl : topicList)
    (h : s.getClient id = some (c, tl)) :
    (s.Publish topic ev).getClient id
      = some (if lookupTL tl topic then ((c.Send ev).1, tl) else (c, tl)) := by
  obtain ⟨p₀, hp₀, hval, -⟩ := getClient_entry s id c tl h
  have h2 : p₀.2.2 = tl := by rw [hval]
  unfold Stream.getClient Stream.Publish
  rw [find?_key_map s.clients id
      (fun p => if lookupTL p.2.2 topic then (p.1, (p.2.1.Send ev).1, p.2.2) else p)
      (fun p => by by_cases hc : lookupTL p.2.2 topic = true <;> simp [hc])]
  rw [hp₀]
  simp only [Option.map_some']
  by_cases hc : lookupTL p₀.2.2 topic = true
  · rw [if_pos hc]
    rw [h2] at hc
    rw [if_pos hc]
    simp [hval]
  · rw [if_neg hc]
    rw [h2] at hc
    rw [if_neg hc, hval]

/-- Effect of `Broadcast` on one registered client: `Send` is invoked. -/
lemma getClient_Broadcast (s : Stream) (ev : Event)
    (id : Nat) (c : Client) (tl : topicList)
    (h : s.getClient id = some (c, tl)) :
    (s.Broadcast ev).getClient id = some ((c.Send ev).1, tl) := by
  obtain ⟨p₀, hp₀, hval, -⟩ := getClient_entry s id c tl h
  unfold Stream.getClient Stream.Broadcast
  rw [find?_key_map s.clients id
      (fun p => (p.1, (p.2.1.Send ev).1, p.2.2)) (fun p => rfl)]
  rw [hp₀]
  simp [hval]

/-- Effect of `Unsubscribe` on the targeted registered client: still
registered, with the topic flag written to `false`. -/
lemma getClient_Unsubscribe (s : Stream) (topic : String)
    (id : Nat) (c : Client) (tl : topicList)
    (h : s.getClient id = some (c, tl)) :
    (s.Unsubscribe topic id).getClient id = some (c, setTL tl topic false) := by
  obtain ⟨p₀, hp₀, hval, hkey⟩ := getClient_entry s id c tl h
  have hk : p₀.1 = id := by simpa using hkey
  unfold Stream.Unsubscribe
  rw [h]
  unfold Stream.getClient
  rw [find?_key_map s.clients id
      (fun p => if p.1 == id then (p.1, p.2.1, setTL p.2.2 topic false) else p)
      (fun p => by by_cases hc : (p.1 == id) = true <;> simp [hc])]
  rw [hp₀]
  simp only [Option.map_some']
  rw [if_pos (by simpa using hk)]
  simp [hval]

/-- `Unsubscribe` for an unregistered client is the identity. -/
lemma Unsubscribe_not_registered (s : Stream) (topic : String) (id : Nat)
    (h : s.getClient id = none) : s.Unsubscribe topic id = s := by
  unfold Stream.Unsubscribe
  rw [h]

/-- Reading back a Go map write: `m[k] = v` makes `m[k]` read `v`. -/
lemma lookup_setTL (tl : topicList) (topic : String) (v : Bool) :
    lookupTL (setTL tl topic v) topic = v := by
  unfold setTL
  by_cases hf : (tl.find? (fun p => p.1 == topic)).isSome
  · rw [if_pos hf]
    obtain ⟨q, hq⟩ := Option.isSome_iff_exists.mp hf
    have hqkey := List.find?_some hq
    unfold lookupTL
    rw [List.find?_map]
    have hpred : ((fun p : String × Bool => p.1 == topic)
          ∘ fun p => if p.1 == topic then (p.1, v) else p)
        = fun p => p.1 == topic := by
      funext p
      by_cases hc : (p.1 == topic) = true <;> simp [Function.comp, hc]
    rw [hpred, hq]
    have hq1 : q.1 = topic := by simpa using hqkey
    simp [hq1]
  · rw [if_neg hf]
    unfold lookupTL
    rw [List.find?_append]
    rw [Option.not_isSome_iff_eq_none] at hf
    rw [hf]
    simp

/-! Theorems for the claims about `Event`. -/

/-- C1: an Event with id `"7"`, type `"tick"`, the single data line
`"hello"` and retry `0` renders through `String` to exactly
`"event: tick\nid: 7\ndata: hello\n\n"`; draining `Read` from the
normal dirty-buffer state produces the same bytes. -/
theorem c1_fixed_rendering_order (e : Event)
    (hid : e.id = "7".toList) (hev : e.event = "tick".toList)
    (hdat : e.data = ["hello".toList]) (hret : e.retry = 0) :
    (e.String).1 = "event: tick\nid: 7\ndata: hello\n\n".toList
      ∧ (e.bufSet = false →
          (e.readAll).1 = "event: tick\nid: 7\ndata: hello\n\n".toList) := by
  obtain ⟨i, d, v, r, b, bs⟩ := e
  simp only at hid hev hdat hret
  subst hid hev hdat hret
  constructor
  · rfl
  · intro hb
    simp only at hb
    subst hb
    rfl

/-- C1 witness: the event built by the setters from the zero value. -/
theorem c1_fixed_rendering_order_witness :
    ((((Event.empty.ID "7".toList).Type "tick".toList).Data "hello".toList).String).1
        = "event: tick\nid: 7\ndata: hello\n\n".toList
      ∧ ((((Event.empty.ID "7".toList).Type "tick".toList).Data "hello".toList).readAll).1
        = "event: tick\nid: 7\ndata: hello\n\n".toList :=
  ⟨(c1_fixed_rendering_order _ (by decide) (by decide) (by decide) (by decide)).1,
   (c1_fixed_rendering_order _ (by decide) (by decide) (by decide) (by decide)).2 (by decide)⟩

/-- C2: `WriteString` (hence `AppendData`, `Data` and `Write`) splits its
input on newlines and appends exactly the non-empty segments; no empty
data line is ever introduced; the input `"a\n\nb"` produces exactly the
data lines `a` and `b` and renders to `"data: a\ndata: b\n\n"`. -/
theorem c2_split_drops_empty_segments (e : Event) (p : GoString) :
    (e.WriteString p).data
        = e.data ++ (splitOnNl p).filter (fun x => !(x.length == 0))
      ∧ (e.Data p).data = (splitOnNl p).filter (fun x => !(x.length == 0))
      ∧ ([] ∉ e.data → [] ∉ (e.WriteString p).data)
      ∧ (Event.empty.AppendData "a\n\nb".toList).data = ["a".toList, "b".toList]
      ∧ ((Event.empty.AppendData "a\n\nb".toList).String).1
        = "data: a\ndata: b\n\n".toList := by
  refine ⟨?_, ?_, ?_, by decide, by decide⟩
  · simp only [Event.WriteString]
    exact foldl_skip_empty _ _
  · simp only [Event.Data, Event.WriteString]
    exact foldl_skip_empty _ _
  · intro hnd hmem
    simp only [Event.WriteString, foldl_skip_empty, List.mem_append] at hmem
    rcases hmem with hmem | hmem
    · exact hnd hmem
    · have := List.of_mem_filter hmem
      simp at this

/-- C2 witness: an event already holding a data line, extended with
`"a\n\nb"`, still has no empty data line. -/
theorem c2_split_drops_empty_segments_witness :
    ((Event.empty.AppendData "z".toList).WriteString "a\n\nb".toList).data
        = ["z".toList, "a".toList, "b".toList]
      ∧ [] ∉ ((Event.empty.AppendData "z".toList).WriteString "a\n\nb".toList).data :=
  ⟨by decide,
   (c2_split_drops_empty_segments (Event.empty.AppendData "z".toList)
      "a\n\nb".toList).2.2.1 (by decide)⟩

/-- C3: `String` (the `Render` of the spec) is idempotent — a second call
with no intervening mutation returns byte-identical output, because
`prepare` leaves the structured fields untouched and regenerates the
same buffer from them. -/
theorem c3_render_idempotent (e : Event) :
    (e.String).1 = (((e.String).2).String).1 := rfl

/-- C4: `Clone` copies exactly the structured fields `id`, `event`,
`retry`, `data` — never the cached buffer, which starts empty and dirty
in the clone — so the clone renders identically to the original, and in
the two-event world any structured mutation of the clone leaves the
original's rendering unchanged and vice versa. -/
theorem c4_clone_deep_copy (e : Event) (m : Mutation) :
    (e.Clone).id = e.id ∧ (e.Clone).event = e.event
      ∧ (e.Clone).retry = e.retry ∧ (e.Clone).data = e.data
      ∧ (e.Clone).buf = [] ∧ (e.Clone).bufSet = false
      ∧ ((e.Clone).String).1 = (e.String).1
      ∧ (((mutClone m (cloneWorld e)).1).String).1 = (e.String).1
      ∧ (((mutOrig m (cloneWorld e)).2).String).1 = ((e.Clone).String).1 :=
  ⟨rfl, rfl, rfl, rfl, rfl, rfl, rfl, rfl, rfl⟩

/-- C9: for an event whose structured fields were never populated, a
single `String` call discards whatever `WriteRaw` put into the buffer
and returns just the terminating blank line, even though draining `Read`
right after `WriteRaw` would still have returned the raw bytes. -/
theorem c9_string_discards_raw (e : Event) (p : GoString)
    (hid : e.id = []) (hev : e.event = []) (hdat : e.data = [])
    (hret : e.retry = 0) :
    (((e.WriteRaw p).1).String).1 = ['\n']
      ∧ (((e.WriteRaw p).1).readAll).1 = e.buf ++ p := by
  obtain ⟨i, d, v, r, b, bs⟩ := e
  simp only at hid hev hdat hret
  subst hid hev hdat hret
  exact ⟨rfl, rfl⟩

/-- C9 witness: raw bytes written to the zero event are readable through
`Read` but `String` returns only the blank line. -/
theorem c9_string_discards_raw_witness :
    (((Event.empty.WriteRaw "data: raw\n\n".toList).1).String).1 = ['\n']
      ∧ (((Event.empty.WriteRaw "data: raw\n\n".toList).1).readAll).1
        = "data: raw\n\n".toList :=
  ⟨(c9_string_discards_raw Event.empty "data: raw\n\n".toList rfl rfl rfl rfl).1,
   (c9_string_discards_raw Event.empty "data: raw\n\n".toList rfl rfl rfl rfl).2⟩

/-- C10: writing a byte slice consisting only of newline characters
(the empty slice included) appends no data line, yet still reports all
bytes accepted with no error, and still clears the clean flag so the
next read regenerates the buffer. -/
theorem c10_write_only_newlines (e : Event) (p : GoString)
    (h : ∀ c ∈ p, c = '\n') :
    ((e.Write p).1).data = e.data
      ∧ ((e.Write p).1).bufSet = false
      ∧ (e.Write p).2.1 = p.length
      ∧ (e.Write p).2.2 = none := by
  refine ⟨?_, rfl, ?_, rfl⟩
  · simp only [Event.Write, Event.WriteString, foldl_skip_empty]
    have hall : ∀ x ∈ (splitOnNl p).filter (fun x => !(x.length == 0)), x = [] :=
      fun x hx => splitOnNl_all_newline p h x (List.mem_of_mem_filter hx)
    have : (splitOnNl p).filter (fun x => !(x.length == 0)) = [] := by
      cases hf : (splitOnNl p).filter (fun x => !(x.length == 0)) with
      | nil => rfl
      | cons y ys =>
        have hy : y = [] := hall y (by rw [hf]; simp)
        have := List.of_mem_filter (p := fun x => !(x.length == 0))
          (a := y) (by rw [hf]; simp)
        simp [hy] at this

    simp [this]
  · simp only [Event.Write]
    exact utf8Len_all_newline p h

/-- C10 witness: two newlines written to an event with one data line. -/
theorem c10_write_only_newlines_witness :
    (((Event.empty.AppendData "a".toList).Write ['\n', '\n']).1).data
        = ["a".toList]
      ∧ ((Event.empty.AppendData "a".toList).Write ['\n', '\n']).2.1 = 2
      ∧ ((Event.empty.AppendData "a".toList).Write ['\n', '\n']).2.2 = none := by
  have h := c10_write_only_newlines (Event.empty.AppendData "a".toList)
    ['\n', '\n'] (by decide)
  exact ⟨by rw [h.1]; decide, h.2.2.1, h.2.2.2⟩

/-! Theorems for the claims about `Client` and `Stream`. -/

/-- C5: `Send` on a closed client returns the connection-closed error
(`io.ErrClosedPipe`) and leaves the client's queue and state unchanged;
on a non-closed client it enqueues a clone of the event and returns no
error; in particular `Send` after a completed `Shutdown` errors. -/
theorem c5_send_closed_returns_error (c : Client) (ev : Event) :
    (c.closed = true → c.Send ev = (c, some GoErr.errClosedPipe))
      ∧ (c.closed = false →
          c.Send ev = ({ c with events := c.events ++ [ev.Clone] }, none))
      ∧ (c.Shutdown).Send ev = (c.Shutdown, some GoErr.errClosedPipe) := by
  refine ⟨fun h => ?_, fun h => ?_, rfl⟩
  · simp [Client.Send, h]
  · simp [Client.Send, h]

/-- C5 witness: a fresh client enqueues; the shut-down client errors. -/
theorem c5_send_closed_returns_error_witness :
    (Client.new.Shutdown).Send Event.empty
        = (Client.new.Shutdown, some GoErr.errClosedPipe)
      ∧ Client.new.Send Event.empty
        = ({ Client.new with events := [Event.empty.Clone] }, none) :=
  ⟨(c5_send_closed_returns_error Client.new Event.empty).2.2,
   (c5_send_closed_returns_error Client.new Event.empty).2.1 rfl⟩

/-- A concrete event used by the stream witnesses. -/
def wEvent : Event := Event.empty.Data "hi".toList

/-- A concrete stream: client A (id 0) subscribed to `"x"`, client B
(id 1) registered but not subscribed. -/
def wStreamAB : Stream :=
  (NewStream.Subscribe "x" 0 Client.new).Register 1 Client.new

/-- A concrete stream with two registered clients. -/
def wStream2 : Stream := (NewStream.Register 0 Client.new).Register 1 Client.new

/-- C6: `Publish` invokes `Send` exactly on the registered clients whose
topic set contains the topic (clients with the flag absent or `false`
are untouched), `Broadcast` invokes `Send` on every registered client,
and `Send` on a live client enqueues a clone of the event. -/
theorem c6_publish_filters_broadcast_all (s : Stream) (topic : String)
    (ev : Event) (id : Nat) (c : Client) (tl : topicList) :
    (s.getClient id = some (c, tl) → lookupTL tl topic = true →
        (s.Publish topic ev).getClient id = some ((c.Send ev).1, tl))
      ∧ (s.getClient id = some (c, tl) → lookupTL tl topic = false →
        (s.Publish topic ev).getClient id = some (c, tl))
      ∧ (s.getClient id = some (c, tl) →
        (s.Broadcast ev).getClient id = some ((c.Send ev).1, tl))
      ∧ (c.closed = false → ((c.Send ev).1).events = c.events ++ [ev.Clone]) := by
  refine ⟨fun h ht => ?_, fun h ht => ?_,
    fun h => getClient_Broadcast s ev id c tl h, fun h => ?_⟩
  · rw [getClient_Publish s topic ev id c tl h, if_pos ht]
  · rw [getClient_Publish s topic ev id c tl h, if_neg (by simp [ht])]
  · simp [Client.Send, h]

/-- C6 witness: on the concrete stream, `Publish "x"` reaches only the
subscribed client A while `Broadcast` reaches both A and B, and the
delivery is a clone of the event. -/
theorem c6_publish_filters_broadcast_all_witness :
    (wStreamAB.Publish "x" wEvent).getClient 0
        = some ((Client.new.Send wEvent).1, [("x", true)])
      ∧ (wStreamAB.Publish "x" wEvent).getClient 1 = some (Client.new, [])
      ∧ (wStreamAB.Broadcast wEvent).getClient 0
        = some ((Client.new.Send wEvent).1, [("x", true)])
      ∧ (wStreamAB.Broadcast wEvent).getClient 1
        = some ((Client.new.Send wEvent).1, [])
      ∧ ((Client.new.Send wEvent).1).events = [wEvent.Clone] :=
  ⟨(c6_publish_filters_broadcast_all wStreamAB "x" wEvent 0 Client.new
      [("x", true)]).1 rfl rfl,
   (c6_publish_filters_broadcast_all wStreamAB "x" wEvent 1 Client.new []).2.1
      rfl rfl,
   (c6_publish_filters_broadcast_all wStreamAB "x" wEvent 0 Client.new
      [("x", true)]).2.2.1 rfl,
   (c6_publish_filters_broadcast_all wStreamAB "x" wEvent 1 Client.new []).2.2.1
      rfl,
   (c6_publish_filters_broadcast_all wStreamAB "x" wEvent 0 Client.new
      [("x", true)]).2.2.2 rfl⟩

/-- C7: after `Unsubscribe`, a registered client is still registered
(its entry survives, with the topic flag written to `false`), so a
subsequent `Publish` on that topic no longer invokes `Send` on it while
`Broadcast` still does; `Unsubscribe` for an unregistered client is a
no-op on the stream. -/
theorem c7_unsubscribe_keeps_registration (s : Stream) (topic : String)
    (id : Nat) (c : Client) (tl : topicList) (ev : Event) :
    (s.getClient id = some (c, tl) →
        (s.Unsubscribe topic id).getClient id = some (c, setTL tl topic false)
      ∧ lookupTL (setTL tl topic false) topic = false
      ∧ ((s.Unsubscribe topic id).Publish topic ev).getClient id
          = some (c, setTL tl topic false)
      ∧ ((s.Unsubscribe topic id).Broadcast ev).getClient id
          = some ((c.Send ev).1, setTL tl topic false))
    ∧ (s.getClient id = none → s.Unsubscribe topic id = s) := by
  refine ⟨fun h => ?_, Unsubscribe_not_registered s topic id⟩
  have hu := getClient_Unsubscribe s topic id c tl h
  refine ⟨hu, lookup_setTL tl topic false, ?_,
    getClient_Broadcast _ ev id c _ hu⟩
  rw [getClient_Publish _ topic ev id c _ hu,
    if_neg (by simp [lookup_setTL])]

/-- C7 witness: unsubscribing A from `"x"` on the concrete stream keeps
it registered, makes `Publish "x"` miss it, keeps `Broadcast` reaching
it; unsubscribing an unknown id changes nothing. -/
theorem c7_unsubscribe_keeps_registration_witness :
    (wStreamAB.Unsubscribe "x" 0).getClient 0
        = some (Client.new, [("x", false)])
      ∧ ((wStreamAB.Unsubscribe "x" 0).Publish "x" wEvent).getClient 0
        = some (Client.new, [("x", false)])
      ∧ ((wStreamAB.Unsubscribe "x" 0).Broadcast wEvent).getClient 0
        = some ((Client.new.Send wEvent).1, [("x", false)])
      ∧ wStreamAB.Unsubscribe "x" 5 = wStreamAB :=
  ⟨((c7_unsubscribe_keeps_registration wStreamAB "x" 0 Client.new
      [("x", true)] wEvent).1 rfl).1,
   ((c7_unsubscribe_keeps_registration wStreamAB "x" 0 Client.new
      [("x", true)] wEvent).1 rfl).2.2.1,
   ((c7_unsubscribe_keeps_registration wStreamAB "x" 0 Client.new
      [("x", true)] wEvent).1 rfl).2.2.2,
   (c7_unsubscribe_keeps_registration wStreamAB "x" 5 Client.new
      [] wEvent).2 rfl⟩

/-- C8: `Shutdown` on a stream shuts down every one of its registered
clients (each observed in its post-`Shutdown` state: closed, queue
drained) and removes them all, leaving `NumClients() = 0`. -/
theorem c8_shutdown_empties_registry (s : Stream) :
    ((s.Shutdown).1).NumClients = 0
      ∧ (s.Shutdown).2.map Prod.fst = s.clients.map Prod.fst
      ∧ ∀ p ∈ (s.Shutdown).2, p.2.closed = true ∧ p.2.events = [] := by
  refine ⟨rfl, ?_, ?_⟩
  · simp [Stream.Shutdown]
  · intro p hp
    simp only [Stream.Shutdown, List.mem_map] at hp
    obtain ⟨q, -, rfl⟩ := hp
    exact ⟨rfl, rfl⟩

/-- C8 witness: shutting down the concrete two-client stream empties it
and every observed client ends closed. -/
theorem c8_shutdown_empties_registry_witness :
    ((wStream2.Shutdown).1).NumClients = 0
      ∧ ((0 : Nat), Client.new.Shutdown).2.closed = true
      ∧ ((0 : Nat), Client.new.Shutdown).2.events = [] :=
  ⟨(c8_shutdown_empties_registry wStream2).1,
   ((c8_shutdown_empties_registry wStream2).2.2
      (0, Client.new.Shutdown) (by decide)).1,
   ((c8_shutdown_empties_registry wStream2).2.2
      (0, Client.new.Shutdown) (by decide)).2⟩

end EventSource
